import Mathlib

/-!
Verification development for the Cache.py repository: a persistent blob
cache over pluggable storage backends (SQLite, LMDB) with a reversible
transformer (codec) stack and optional compression.

The definitions below are shallow embeddings of the functions in
`src/Cache/__init__1.py`, `src/Cache/storageBackends/sqlite.py` and
`src/Cache/storageBackends/lmdb.py`.  Bytes are modelled as lists of
naturals; the keyed byte stores are association lists with unique keys
kept by an insert-or-replace update.
-/

namespace CachePy

/-- Raw byte strings (values of backend tables). -/
abbrev Bytes := List Nat

/-- A keyed byte store (the contents of one backend table): an association
list from keys to raw byte values. -/
abbrev Store (K : Type) := List (K × Bytes)

/-- Lookup in a store; models `SQLiteBackend.Table.__getitem__` /
`LMDBBackend._Table.__getitem__`, both of which return nil when the key is
absent. -/
def Store.get {K : Type} [DecidableEq K] : Store K → K → Option Bytes
  | [], _ => none
  | (k2, v) :: rest, k => if k2 = k then some v else Store.get rest k

/-- Insert-or-replace; models SQLite `insert or replace into ... (key, val)`
and LMDB `tx.replace`. -/
def Store.set {K : Type} [DecidableEq K] : Store K → K → Bytes → Store K
  | [], k, v => [(k, v)]
  | (k2, w) :: rest, k, v =>
    if k2 = k then (k, v) :: rest else (k2, w) :: Store.set rest k v

/-- Delete a key; models SQLite `delete from ... where key = ?` and LMDB
`tx.delete` (both idempotent on absent keys). -/
def Store.del {K : Type} [DecidableEq K] : Store K → K → Store K
  | [], _ => []
  | (k2, w) :: rest, k =>
    if k2 = k then Store.del rest k else (k2, w) :: Store.del rest k

/-- A transformer stack as used by the cache: `process` decodes raw bytes
into a user value (forward), `unprocess` encodes a user value into raw
bytes (reverse).  Mirrors `TransformerStack` usage in `BlobCache`. -/
structure TransformerStack (V : Type) where
  process : Bytes → V
  unprocess : V → Bytes

/-- A compressor instance: `process` decompresses, `unprocess` compresses,
mirroring `Compressor` usage in `BlobCache.__getitem__`/`__setitem__`. -/
structure Compressor where
  process : Bytes → Bytes
  unprocess : Bytes → Bytes

/-- The identity transformer stack: the empty stack of the blob flavor
(`BlobCache.transformers = TransformerStack()`). -/
def blobStack : TransformerStack Bytes where
  process := fun b => b
  unprocess := fun b => b

/-- `val = compressor.unprocess(val)` when a compressor is configured
(write path of `BlobCache.__setitem__`). -/
def compressVal (cp : Option Compressor) (bs : Bytes) : Bytes :=
  match cp with
  | none => bs
  | some c => c.unprocess bs

/-- `val = compressor.process(val)` when a compressor is configured
(read path of `BlobCache.__getitem__`). -/
def decompressVal (cp : Option Compressor) (bs : Bytes) : Bytes :=
  match cp with
  | none => bs
  | some c => c.process bs

/-- `BlobCache.__setitem__` for a non-nil value: route the key through
`kenc` (identity for a native key type; the transformer stack when the
declared key type is `typing.Any`), encode the value with the stack
reverse (`transformers.unprocess`), compress, then store. -/
def cacheSetItem {V Ku K : Type} [DecidableEq K] (ts : TransformerStack V)
    (cp : Option Compressor) (kenc : Ku → K) (s : Store K) (k : Ku) (v : V) :
    Store K :=
  Store.set s (kenc k) (compressVal cp (ts.unprocess v))

/-- `BlobCache.__getitem__`: route the key through `kenc`, read the raw
bytes; `if not val: return None` makes both an absent key and stored empty
bytes read as nil; otherwise decompress then decode with the stack forward
(`transformers.process`). -/
def cacheGetItem {V Ku K : Type} [DecidableEq K] (ts : TransformerStack V)
    (cp : Option Compressor) (kenc : Ku → K) (s : Store K) (k : Ku) :
    Option V :=
  match Store.get s (kenc k) with
  | none => none
  | some bs => if bs = [] then none else some (ts.process (decompressVal cp bs))

/-- `BlobCache.__contains__`: `self[key] is not None`. -/
def cacheContainsItem {V Ku K : Type} [DecidableEq K] (ts : TransformerStack V)
    (cp : Option Compressor) (kenc : Ku → K) (s : Store K) (k : Ku) : Bool :=
  (cacheGetItem ts cp kenc s k).isSome

/-! ## SQLite backend durability model

`SQLiteBackend` keeps an open connection whose uncommitted writes live in
the connection (`mem`); `commit` (`self.db.commit()`) makes them durable,
and `__exit__` commits then closes.  A freshly opened connection over the
same file sees exactly the durable state. -/

structure SQLiteSt (K : Type) where
  mem : Store K
  durable : Store K

/-- A table write through the open connection (uncommitted until commit). -/
def sqliteSet {K : Type} [DecidableEq K] (s : SQLiteSt K) (k : K) (v : Bytes) :
    SQLiteSt K :=
  { s with mem := Store.set s.mem k v }

/-- A table delete through the open connection. -/
def sqliteDel {K : Type} [DecidableEq K] (s : SQLiteSt K) (k : K) : SQLiteSt K :=
  { s with mem := Store.del s.mem k }

/-- `SQLiteBackend.commit`: `self.db.commit()` flushes the connection. -/
def sqliteCommit {K : Type} (s : SQLiteSt K) : SQLiteSt K :=
  { s with durable := s.mem }

/-- `SQLiteBackend.__exit__`: `self.commit(); self.db.close()`. -/
def sqliteExit {K : Type} (s : SQLiteSt K) : SQLiteSt K :=
  sqliteCommit s

/-- Reopening the same file: a fresh connection over the durable state. -/
def sqliteOpen {K : Type} (durable : Store K) : SQLiteSt K :=
  { mem := durable, durable := durable }

/-! ## LMDB shared write transaction

`LMDBBackend.SharedWriteTransaction` (lmdb.py lines 29-61): ref-counted;
entering with count 0 spawns a transaction, the exit that drops the count
to 0 COMMITS it — including when the scope is being exited because of an
exception (`__exit__` ignores its exception arguments).  `abort` exists
but is never called by the backend.  `LMDBBackend.commit` is `pass` and
`LMDBBackend.beginTransaction` is `pass`. -/

structure SharedTx (K : Type) where
  durable : Store K
  tx : Option (Store K)
  refCount : Nat

/-- `SharedWriteTransaction.__enter__`. -/
def SharedTx.enterTx {K : Type} (s : SharedTx K) : SharedTx K :=
  if s.refCount = 0 then
    { s with tx := some s.durable, refCount := 1 }
  else
    { s with refCount := s.refCount + 1 }

/-- `SharedWriteTransaction.__exit__`: decrement; when the count reaches 0
the transaction is committed, whether or not an exception is in flight. -/
def SharedTx.exitTx {K : Type} (s : SharedTx K) : SharedTx K :=
  if s.refCount = 1 then
    { durable := s.tx.getD s.durable, tx := none, refCount := 0 }
  else
    { s with refCount := s.refCount - 1 }

/-- A single LMDB table write (`_Table.__setitem__`): enter the shared
transaction, `tx.replace`, exit (committing when this was the outermost
scope). -/
def lmdbSet {K : Type} [DecidableEq K] (s : SharedTx K) (k : K) (v : Bytes) :
    SharedTx K :=
  let s1 := s.enterTx
  SharedTx.exitTx { s1 with tx := (s1.tx.map (fun t => Store.set t k v)) }

/-- A single LMDB table delete (`_Table.__delitem__`). -/
def lmdbDel {K : Type} [DecidableEq K] (s : SharedTx K) (k : K) : SharedTx K :=
  let s1 := s.enterTx
  SharedTx.exitTx { s1 with tx := (s1.tx.map (fun t => Store.del t k)) }

/-- `LMDBBackend.commit`: `pass`. -/
def lmdbCommit {K : Type} (s : SharedTx K) : SharedTx K := s

/-! ## Write-op sequences (durability, P5) -/

/-- A mutating table operation issued by the cache (already encoded to
raw bytes). -/
inductive WOp (K : Type) where
  | put (k : K) (v : Bytes)
  | del (k : K)

/-- The logical effect of one write op on a plain store. -/
def applyWOp {K : Type} [DecidableEq K] (s : Store K) : WOp K → Store K
  | .put k v => Store.set s k v
  | .del k => Store.del s k

/-- The logical effect of a sequence of write ops. -/
def applyWOps {K : Type} [DecidableEq K] (s : Store K) : List (WOp K) → Store K
  | [] => s
  | op :: rest => applyWOps (applyWOp s op) rest

/-- Running a sequence of write ops against the SQLite backend. -/
def sqliteRun {K : Type} [DecidableEq K] (s : SQLiteSt K) :
    List (WOp K) → SQLiteSt K
  | [] => s
  | .put k v :: rest => sqliteRun (sqliteSet s k v) rest
  | .del k :: rest => sqliteRun (sqliteDel s k) rest

/-- Running a sequence of write ops against the LMDB backend. -/
def lmdbRun {K : Type} [DecidableEq K] (s : SharedTx K) :
    List (WOp K) → SharedTx K
  | [] => s
  | .put k v :: rest => lmdbRun (lmdbSet s k v) rest
  | .del k :: rest => lmdbRun (lmdbDel s k) rest

/-- The quiescent LMDB backend state over a durable store (no transaction
open, as after `LMDBBackend.__enter__`). -/
def lmdbIdle {K : Type} (durable : Store K) : SharedTx K :=
  { durable := durable, tx := none, refCount := 0 }

/-! ## Commit accounting (`BlobCache.willCommit` / `opCommit` / `commit`)

`__init__1.py` lines 93-106.  The state tracks the pending-ops counter and
the number of backend commits issued through `BlobCache.commit`. -/

structure OpsSt where
  opsPending : Nat
  commits : Nat
deriving DecidableEq

/-- The state of a freshly opened cache: `self.opsPending = 0`. -/
def freshOps : OpsSt := { opsPending := 0, commits := 0 }

/-- `BlobCache.willCommit`:
`self.opsPending and (self.opsPending % self.commitOnNOps == 0)` —
evaluated on the counter as it stands BEFORE the current op is counted. -/
def willCommit (commitOnNOps : Nat) (s : OpsSt) : Bool :=
  s.opsPending != 0 && s.opsPending % commitOnNOps == 0

/-- `BlobCache.commit`: `self.backend.commit(); self.opsPending = 0`. -/
def cacheCommit (s : OpsSt) : OpsSt :=
  { opsPending := 0, commits := s.commits + 1 }

/-- `BlobCache.opCommit`: commit when `willCommit`, else increment the
counter (the committing op itself is not counted). -/
def opCommit (commitOnNOps : Nat) (s : OpsSt) : OpsSt :=
  if willCommit commitOnNOps s then cacheCommit s
  else { s with opsPending := s.opsPending + 1 }

/-- The counter state after `k` mutating operations on a fresh cache. -/
def iterMutOps (commitOnNOps : Nat) : Nat → OpsSt
  | 0 => freshOps
  | k + 1 => opCommit commitOnNOps (iterMutOps commitOnNOps k)

/-- The counter effect shared by `BlobCache.vacuum` and
`BlobCache.optimize`: `if self.opsPending: self.commit()` and then a
backend maintenance call that does not touch the counter. -/
def maintCommit (s : OpsSt) : OpsSt :=
  if s.opsPending != 0 then cacheCommit s else s

/-- The operations of the cache facade that touch the counter: a mutating
op (`__setitem__` of a non-nil value, `__delitem__`, and `__setitem__` of
nil, which delegates to `__delitem__`), an explicit `commit`, `vacuum`,
`optimize`, and `empty`. -/
inductive CacheOp where
  | mutOp
  | commitOp
  | vacuumOp
  | optimizeOp
  | emptyOp
deriving DecidableEq

/-- One step of the counter state machine.  `empty` drops the data table,
recreates it (`createDataTable` ends with `self.optimize()`) and then
calls `self.commit()`. -/
def stepCacheOp (commitOnNOps : Nat) (s : OpsSt) : CacheOp → OpsSt
  | .mutOp => opCommit commitOnNOps s
  | .commitOp => cacheCommit s
  | .vacuumOp => maintCommit s
  | .optimizeOp => maintCommit s
  | .emptyOp => cacheCommit (maintCommit s)

/-- Running a sequence of cache operations from a given counter state. -/
def foldCacheOps (commitOnNOps : Nat) (s : OpsSt) : List CacheOp → OpsSt
  | [] => s
  | op :: rest => foldCacheOps commitOnNOps (stepCacheOp commitOnNOps s op) rest

/-- Running a sequence of cache operations from a freshly opened cache. -/
def runCacheOps (commitOnNOps : Nat) (ops : List CacheOp) : OpsSt :=
  foldCacheOps commitOnNOps freshOps ops

/-! ## SQLite column types (`SQLiteBackend.Table.create`)

sqlite.py lines 11-29 define the fixed type map; lines 47-54 generate the
`create table` statement.  The statement types the `key` column with
`pythonTypeToSQLiteType[keyType]` and — as written in the source — the
`val` column ALSO with `pythonTypeToSQLiteType[keyType]`; the `valueType`
parameter is never used. -/

/-- The declared physical types of the fixed map. -/
inductive PyType where
  | intTy
  | strTy
  | bytesTy
deriving DecidableEq

/-- `pythonTypeToSQLiteType` (the inverse of `sqliteTypeToPythonType`). -/
def pythonTypeToSQLiteType : PyType → String
  | .intTy => "INTEGER"
  | .strTy => "TEXT"
  | .bytesTy => "BLOB"

/-- The pair (key column SQL type, val column SQL type) produced by
`SQLiteBackend.Table.create(keyType, valueType)`, faithful to the source:
both columns are typed from `keyType`. -/
def createColumnTypes (keyType : PyType) (valueType : PyType) :
    String × String :=
  (pythonTypeToSQLiteType keyType, pythonTypeToSQLiteType keyType)

/-- `BlobCache.createDataTable`: `self.backend.tables.data.create(keyType,
bytes)` where `keyType` is the declared key type (`bytes` when the
declared type is `typing.Any`). -/
def createDataTableColumnTypes (declaredKeyType : PyType) : String × String :=
  createColumnTypes declaredKeyType .bytesTy

/-! ## Attach path of `BlobCache.__enter__` (__init__1.py lines 232-259)

In source order: decode the stored `serializers` metadata and fail when it
differs from the class codec-stack id tuple; read the stored key type of
the data table and fail on mismatch unless declared `typing.Any` with
stored `bytes`; then read the stored `dict` metadata and take the branch
`if dic is not None and len(dict) > 0`.  In that condition `len` is
applied to the BUILTIN TYPE `dict`, not to the variable `dic`, so whenever
`dic` is non-nil the condition raises `TypeError` and `__enter__` fails;
only the `dic is None` short circuit reaches the dictionary-less
`recreateCompressorWithArgs()` call.  No data-table row is read anywhere
on this path. -/

/-- Key types as seen by the attach-path check: the backends report
`int`, `str` or `bytes`; the declared type may additionally be
`typing.Any`. -/
inductive KeyTy where
  | intK
  | strK
  | bytesK
  | anyK
deriving DecidableEq

/-- The ways the attach path can fail. -/
inductive EnterError where
  | incompatibleCodecs
  | incompatibleKeyType
  | typeErrorLenOfBuiltinDict
deriving DecidableEq

/-- What a successful attach produces: the compressor id taken from the
stored `compression` metadata and whether the compressor was built with a
dictionary. -/
structure AttachedCfg where
  compressionId : String
  hasDictionary : Bool
deriving DecidableEq

/-- The attach path of `BlobCache.__enter__`. -/
def enterAttach (classSerializers : List String) (declaredKeyType : KeyTy)
    (storedKeyType : KeyTy) (storedCompression : String)
    (storedSerializers : List String) (storedDict : Option Bytes) :
    Except EnterError AttachedCfg :=
  if storedSerializers ≠ classSerializers then
    .error .incompatibleCodecs
  else if storedKeyType ≠ declaredKeyType ∧
      ¬(declaredKeyType = .anyK ∧ storedKeyType = .bytesK) then
    .error .incompatibleKeyType
  else
    match storedDict with
    | some _ => .error .typeErrorLenOfBuiltinDict
    | none => .ok { compressionId := storedCompression, hasDictionary := false }

/-! ## Bulk re-encode on LMDB (`_Table.applyToValues`, lmdb.py 154-161)

The cursor walks every record and replaces its value with `fn(value)`.
The whole walk runs inside `with self.parent.currentWriteTx` — the shared
write transaction — so when `fn` raises mid-walk, the records already
replaced stay in the transaction, the exception propagates out of the
`with` block, and `SharedWriteTransaction.__exit__` COMMITS the
transaction anyway.  `fn` is `BlobCache._recompressorFunc`; a raising call
is modelled as `fn v = none`. -/

/-- Walk the records in order, replacing each value with `fn`; stop at the
first failing record, leaving it and the ones after it unchanged.  Returns
the resulting record list and whether the walk completed. -/
def applyValsList {K : Type} (fn : Bytes → Option Bytes) :
    List (K × Bytes) → List (K × Bytes) × Bool
  | [] => ([], true)
  | (k, v) :: rest =>
    match fn v with
    | none => ((k, v) :: rest, false)
    | some w =>
      let r := applyValsList fn rest
      ((k, w) :: r.1, r.2)

/-- `LMDBBackend._Table.applyToValues` over the shared write transaction:
enter, walk-and-replace, exit.  The exit commits whether or not the walk
completed, because `SharedWriteTransaction.__exit__` ignores the exception
arguments. -/
def lmdbApplyToValuesTx {K : Type} (fn : Bytes → Option Bytes)
    (s : SharedTx K) : SharedTx K × Bool :=
  let s1 := s.enterTx
  match s1.tx with
  | none => (SharedTx.exitTx s1, false)
  | some t =>
    let r := applyValsList fn t
    (SharedTx.exitTx { s1 with tx := some r.1 }, r.2)

/-- The on-disk state `applyCompressionDictionary` works on when the cache
runs over the LMDB backend: the data table behind the shared write
transaction, and the metadata table. -/
structure LmdbCacheSt (K : Type) where
  dataTx : SharedTx K
  meta : Store String

/-- `BlobCache.applyCompressionDictionary` on the LMDB backend
(__init__1.py lines 201-213).  `backend.beginTransaction()` is `pass` on
LMDB.  When the bulk re-encode walk fails, the exception propagates before
`metadata["dict"]` is assigned, so the metadata is unchanged — but the
values replaced before the failure were committed by the shared write
transaction.  The Bool result records whether the call completed. -/
def applyCompressionDictionaryLmdb {K : Type} [DecidableEq K]
    (fn : Bytes → Option Bytes) (newDict : Bytes) (s : LmdbCacheSt K) :
    LmdbCacheSt K × Bool :=
  if Store.get s.meta "dict" = some newDict then
    (s, true)
  else
    let r := lmdbApplyToValuesTx fn s.dataTx
    if r.2 then
      ({ dataTx := r.1, meta := Store.set s.meta "dict" newDict }, true)
    else
      ({ dataTx := r.1, meta := s.meta }, false)

/-- `LMDBBackend.__exit__` on the write-transaction slot after an
exception unwound `applyCompressionDictionary`: the shared transaction was
already closed (count 0), so `SharedWriteTransaction.__exit__` merely
decrements the count and leaves the durable store as committed. -/
def lmdbScopeExit {K : Type} (s : SharedTx K) : SharedTx K :=
  SharedTx.exitTx s

/-- The concrete recompress function of the C3 failing input: succeeds on
the byte string `[65]` (re-encoding it to `[97]`) and raises on anything
else. -/
def fnFailOnSecond : Bytes → Option Bytes :=
  fun v => if v = [65] then some [97] else none

/-- The concrete pre-state of the C3 failing input: an idle LMDB cache
with two data records and a metadata table with no stored dictionary. -/
def c3PreState : LmdbCacheSt Nat :=
  { dataTx := lmdbIdle [(0, [65]), (1, [66])], meta := [] }

/-! ## Helper lemmas -/

theorem Store.get_set_self {K : Type} [DecidableEq K] (s : Store K) (k : K)
    (v : Bytes) : Store.get (Store.set s k v) k = some v := by
  induction s with
  | nil => simp [Store.set, Store.get]
  | cons hd tl ih =>
    obtain ⟨k2, w⟩ := hd
    by_cases h : k2 = k
    · simp [Store.set, Store.get, h]
    · simp [Store.set, Store.get, h, ih]

theorem sqliteRun_mem {K : Type} [DecidableEq K] (ops : List (WOp K)) :
    ∀ s : SQLiteSt K, (sqliteRun s ops).mem = applyWOps s.mem ops ∧
      (sqliteRun s ops).durable = s.durable := by
  induction ops with
  | nil => intro s; exact ⟨rfl, rfl⟩
  | cons op rest ih =>
    intro s
    cases op with
    | put k v => exact ih (sqliteSet s k v)
    | del k => exact ih (sqliteDel s k)

theorem lmdbSet_idle {K : Type} [DecidableEq K] (d : Store K) (k : K)
    (v : Bytes) : lmdbSet (lmdbIdle d) k v = lmdbIdle (Store.set d k v) := by
  simp [lmdbSet, lmdbIdle, SharedTx.enterTx, SharedTx.exitTx, Option.getD]

theorem lmdbDel_idle {K : Type} [DecidableEq K] (d : Store K) (k : K) :
    lmdbDel (lmdbIdle d) k = lmdbIdle (Store.del d k) := by
  simp [lmdbDel, lmdbIdle, SharedTx.enterTx, SharedTx.exitTx, Option.getD]

theorem lmdbRun_idle {K : Type} [DecidableEq K] (ops : List (WOp K)) :
    ∀ d : Store K, lmdbRun (lmdbIdle d) ops = lmdbIdle (applyWOps d ops) := by
  induction ops with
  | nil => intro d; rfl
  | cons op rest ih =>
    intro d
    cases op with
    | put k v =>
      show lmdbRun (lmdbSet (lmdbIdle d) k v) rest = _
      rw [lmdbSet_idle]
      exact ih (Store.set d k v)
    | del k =>
      show lmdbRun (lmdbDel (lmdbIdle d) k) rest = _
      rw [lmdbDel_idle]
      exact ih (Store.del d k)

theorem cacheGetItem_after_set {V Ku K : Type} [DecidableEq K]
    (ts : TransformerStack V) (cp : Option Compressor) (kenc : Ku → K)
    (s : Store K) (k : Ku) (v : V)
    (hstack : ts.process (ts.unprocess v) = v)
    (hcomp : decompressVal cp (compressVal cp (ts.unprocess v)) = ts.unprocess v)
    (hne : compressVal cp (ts.unprocess v) ≠ []) :
    cacheGetItem ts cp kenc (Store.set s (kenc k) (compressVal cp (ts.unprocess v))) k
      = some v := by
  unfold cacheGetItem
  rw [Store.get_set_self]
  simp only [if_neg hne, hcomp, hstack]

/-! ## Claim theorems -/

/-- C1 (counterexample): blob flavor (empty codec stack), no compressor,
value `b""`. `put(0, b"")` stores the empty byte string, and `get(0)`
returns nil (`BlobCache.__getitem__` treats falsy raw bytes as absence),
not a value equal to the one put — so the round-trip claim fails as
stated at this input. -/
theorem putGet_empty_value_counterexample :
    cacheGetItem blobStack none (fun k => k)
      (cacheSetItem blobStack none (fun k => k) ([] : Store Nat) 0 []) 0 = none
    ∧ (none : Option Bytes) ≠ some [] := by
  exact ⟨by decide, by decide⟩

/-- C1 (amended): for every flavor stack, every compressor choice
including none, every key and every value whose stored byte
representation (stack reverse, then compress) is NON-EMPTY, `get(k)`
after `put(k, v)` returns a value equal to `v` — within the session, on a
freshly reopened SQLite cache after close (exit commits), and on the LMDB
backend, whose writes commit immediately.  The hypotheses state that the
codec stack and the compressor invert on this value, which is the
declared contract of the external transformer/compressor catalogs. -/
theorem putGet_roundTrip {V Ku K : Type} [DecidableEq K]
    (ts : TransformerStack V) (cp : Option Compressor) (kenc : Ku → K)
    (st : SQLiteSt K) (d : Store K) (k : Ku) (v : V)
    (hstack : ts.process (ts.unprocess v) = v)
    (hcomp : decompressVal cp (compressVal cp (ts.unprocess v)) = ts.unprocess v)
    (hne : compressVal cp (ts.unprocess v) ≠ []) :
    cacheGetItem ts cp kenc (cacheSetItem ts cp kenc st.mem k v) k = some v
  ∧ cacheGetItem ts cp kenc
      (sqliteOpen (sqliteExit (sqliteSet st (kenc k)
        (compressVal cp (ts.unprocess v)))).durable).mem k = some v
  ∧ cacheGetItem ts cp kenc
      (lmdbSet (lmdbIdle d) (kenc k)
        (compressVal cp (ts.unprocess v))).durable k = some v := by
  refine ⟨?_, ?_, ?_⟩
  · exact cacheGetItem_after_set ts cp kenc st.mem k v hstack hcomp hne
  · exact cacheGetItem_after_set ts cp kenc st.mem k v hstack hcomp hne
  · rw [lmdbSet_idle]
    exact cacheGetItem_after_set ts cp kenc d k v hstack hcomp hne

/-- C1 (witness): the amended round trip evaluated at the blob flavor with
no compressor, key 0 and value `[1, 2]`. -/
theorem putGet_roundTrip_witness :
    cacheGetItem blobStack none (fun k => k)
      (cacheSetItem blobStack none (fun k => k) (sqliteOpen ([] : Store Nat)).mem 0 [1, 2]) 0
      = some [1, 2] :=
  (putGet_roundTrip blobStack none (fun k => k) (sqliteOpen []) [] 0 [1, 2]
    rfl rfl (by decide)).1

/-- C9: `contains(k)` is true exactly when `get(k)` is not nil, and a key
whose stored raw byte value is empty reads exactly like an absent key:
`get` returns nil and `contains` is false. -/
theorem contains_iff_get_not_nil {V Ku K : Type} [DecidableEq K]
    (ts : TransformerStack V) (cp : Option Compressor) (kenc : Ku → K)
    (s : Store K) (k : Ku) :
    (cacheContainsItem ts cp kenc s k = true ↔ cacheGetItem ts cp kenc s k ≠ none)
  ∧ (Store.get s (kenc k) = some [] →
      cacheGetItem ts cp kenc s k = none ∧ cacheContainsItem ts cp kenc s k = false)
  ∧ (Store.get s (kenc k) = none →
      cacheGetItem ts cp kenc s k = none ∧ cacheContainsItem ts cp kenc s k = false) := by
  refine ⟨?_, ?_, ?_⟩
  · simp [cacheContainsItem, Option.isSome_iff_ne_none]
  · intro h
    constructor
    · simp [cacheGetItem, h]
    · simp [cacheContainsItem, cacheGetItem, h]
  · intro h
    constructor
    · simp [cacheGetItem, h]
    · simp [cacheContainsItem, cacheGetItem, h]

/-- C9 (witness): evaluated at a store holding the empty byte string under
key 0, with the blob stack and no compressor. -/
theorem contains_iff_get_not_nil_witness :
    (cacheContainsItem blobStack none (fun k => k) [(0, ([] : Bytes))] (0 : Nat) = true
      ↔ cacheGetItem blobStack none (fun k => k) [(0, ([] : Bytes))] (0 : Nat) ≠ none)
  ∧ (Store.get [(0, ([] : Bytes))] ((fun k => k) (0 : Nat)) = some [] →
      cacheGetItem blobStack none (fun k => k) [(0, ([] : Bytes))] (0 : Nat) = none
        ∧ cacheContainsItem blobStack none (fun k => k) [(0, ([] : Bytes))] (0 : Nat) = false)
  ∧ (Store.get [(0, ([] : Bytes))] ((fun k => k) (0 : Nat)) = none →
      cacheGetItem blobStack none (fun k => k) [(0, ([] : Bytes))] (0 : Nat) = none
        ∧ cacheContainsItem blobStack none (fun k => k) [(0, ([] : Bytes))] (0 : Nat) = false) :=
  contains_iff_get_not_nil blobStack none (fun k => k) [(0, [])] 0

/-- C6 (code bug): `SQLiteBackend.Table.create` types BOTH columns from
`keyType` — the `valueType` parameter is unused — so the data table
created by `createDataTable` (declared key type `str` or `int`, value
type `bytes`) gets a `val` column typed TEXT resp. INTEGER, not the BLOB
the claim (and the method signature) require. -/
theorem createTable_valColumn_usesKeyType :
    createColumnTypes .strTy .bytesTy = ("TEXT", "TEXT")
  ∧ createDataTableColumnTypes .strTy = ("TEXT", "TEXT")
  ∧ createDataTableColumnTypes .intTy = ("INTEGER", "INTEGER")
  ∧ ("TEXT" : String) ≠ "BLOB"
  ∧ ("INTEGER" : String) ≠ "BLOB" := by
  refine ⟨rfl, rfl, rfl, by decide, by decide⟩

/-- C4 (code bug): on the attach path, the stored-dictionary branch tests
`len(dict)` — `len` of the builtin type — which raises `TypeError`
whenever a dictionary is stored, so open fails instead of building the
compressor from the stored dictionary; only the no-dictionary case
completes normally (compressor built without a dictionary). -/
theorem enterAttach_dict_branch :
    enterAttach ["utf8"] .strK .strK "zstd" ["utf8"] (some [1, 2, 3])
      = .error .typeErrorLenOfBuiltinDict
  ∧ enterAttach ["utf8"] .strK .strK "zstd" ["utf8"] none
      = .ok { compressionId := "zstd", hasDictionary := false } := by
  exact ⟨rfl, rfl⟩

/-- C7: whenever the persisted serializers metadata differs from the
opening class codec-stack id tuple, the attach path of
`BlobCache.__enter__` fails with the incompatible-codecs error.  The
check is the first one on the attach path — `enterAttach` consults only
the metadata, never a data-table row. -/
theorem enterAttach_incompatibleCodecs (classSerializers : List String)
    (dk sk : KeyTy) (c : String) (stored : List String) (d : Option Bytes)
    (h : stored ≠ classSerializers) :
    enterAttach classSerializers dk sk c stored d = .error .incompatibleCodecs := by
  unfold enterAttach
  rw [if_pos h]

/-- C7 (witness): a file persisted by the json flavor opened by the
string flavor. -/
theorem enterAttach_incompatibleCodecs_witness :
    enterAttach ["utf8"] .strK .strK "zstd" ["utf8", "json"] none
      = .error .incompatibleCodecs :=
  enterAttach_incompatibleCodecs ["utf8"] .strK .strK "zstd" ["utf8", "json"]
    none (by decide)

/-- C8: with matching serializers, the attach path fails with the
incompatible-key-type error exactly when the stored key type differs from
the declared one and the pair is not (declared `typing.Any`, stored
`bytes`); in particular the asymmetric exception accepts declared `Any`
with stored bytes and nothing else. -/
theorem enterAttach_incompatibleKeyType (classSerializers : List String)
    (dk sk : KeyTy) (c : String) (d : Option Bytes)
    (stored : List String) (h : stored = classSerializers) :
    enterAttach classSerializers dk sk c stored d = .error .incompatibleKeyType
      ↔ (sk ≠ dk ∧ ¬(dk = .anyK ∧ sk = .bytesK)) := by
  subst h
  unfold enterAttach
  rw [if_neg (by simp)]
  by_cases hk : sk ≠ dk ∧ ¬(dk = KeyTy.anyK ∧ sk = KeyTy.bytesK)
  · rw [if_pos hk]
    simp [hk]
  · rw [if_neg hk]
    constructor
    · intro hcontra
      exfalso
      cases d <;> simp at hcontra
    · intro hx
      exact absurd hx hk

/-- C8 (witness): stored int keys opened with declared key type str fail;
evaluated at matching serializers. -/
theorem enterAttach_incompatibleKeyType_witness :
    enterAttach ["utf8"] .strK .intK "none" ["utf8"] none
        = .error .incompatibleKeyType
      ↔ (KeyTy.intK ≠ KeyTy.strK
          ∧ ¬(KeyTy.strK = KeyTy.anyK ∧ KeyTy.intK = KeyTy.bytesK)) :=
  enterAttach_incompatibleKeyType ["utf8"] .strK .intK "none" none ["utf8"] rfl

/-- C3 (code bug): on the LMDB backend a failure inside the bulk
re-encode of `applyCompressionDictionary` does NOT leave the on-disk
state unchanged.  `beginTransaction` is `pass`, the per-record walk runs
inside the shared write transaction, and
`SharedWriteTransaction.__exit__` commits even while the exception
unwinds, so the records re-encoded before the failure are durably
replaced (here key 0: `[65]` became `[97]`), also after the cache scope
is subsequently exited; only the metadata (the `dict` record) stays
unchanged, because the exception propagates before it is written. -/
theorem applyCompressionDictionary_partial_commit :
    (applyCompressionDictionaryLmdb fnFailOnSecond [9] c3PreState).2 = false
  ∧ (applyCompressionDictionaryLmdb fnFailOnSecond [9] c3PreState).1.dataTx.durable
      = [(0, [97]), (1, [66])]
  ∧ (lmdbScopeExit
      (applyCompressionDictionaryLmdb fnFailOnSecond [9] c3PreState).1.dataTx).durable
      = [(0, [97]), (1, [66])]
  ∧ Store.get (applyCompressionDictionaryLmdb fnFailOnSecond [9] c3PreState).1.dataTx.durable 0
      ≠ Store.get c3PreState.dataTx.durable 0
  ∧ (applyCompressionDictionaryLmdb fnFailOnSecond [9] c3PreState).1.meta
      = c3PreState.meta := by
  refine ⟨by decide, by decide, by decide, by decide, by decide⟩

/-- C5: after an explicit `commit()` (SQLite: `db.commit()`), and
likewise after scope exit (`__exit__` commits then closes), the durable
state equals the logical effect of all writes issued so far, so a freshly
opened cache over the same file observes every prior write; on the LMDB
backend each write committed immediately through the shared write
transaction, so the durable state already agrees (its `commit` is a
no-op). -/
theorem commit_durability {K : Type} [DecidableEq K] (d0 : Store K)
    (ops : List (WOp K)) :
    (sqliteCommit (sqliteRun (sqliteOpen d0) ops)).durable = applyWOps d0 ops
  ∧ (sqliteExit (sqliteRun (sqliteOpen d0) ops)).durable = applyWOps d0 ops
  ∧ (sqliteOpen (sqliteCommit (sqliteRun (sqliteOpen d0) ops)).durable).mem
      = applyWOps d0 ops
  ∧ (lmdbCommit (lmdbRun (lmdbIdle d0) ops)).durable = applyWOps d0 ops := by
  have h := sqliteRun_mem ops (sqliteOpen d0)
  have h2 := lmdbRun_idle ops d0
  refine ⟨h.1, h.1, h.1, ?_⟩
  show (lmdbRun (lmdbIdle d0) ops).durable = applyWOps d0 ops
  rw [h2]
  rfl

theorem opCommit_pending_le {N : Nat} (hN : 1 ≤ N) {s : OpsSt}
    (h : s.opsPending ≤ N) : (opCommit N s).opsPending ≤ N := by
  unfold opCommit
  by_cases hw : willCommit N s = true
  · rw [if_pos hw]
    exact Nat.zero_le N
  · rw [if_neg hw]
    show s.opsPending + 1 ≤ N
    rcases Nat.eq_or_lt_of_le h with he | hlt
    · exfalso
      apply hw
      unfold willCommit
      rw [he]
      simp [Nat.mod_self]
      omega
    · omega

theorem stepCacheOp_pending_le {N : Nat} (hN : 1 ≤ N) {s : OpsSt}
    (h : s.opsPending ≤ N) (op : CacheOp) :
    (stepCacheOp N s op).opsPending ≤ N := by
  cases op with
  | mutOp => exact opCommit_pending_le hN h
  | commitOp => exact Nat.zero_le N
  | vacuumOp =>
    show (maintCommit s).opsPending ≤ N
    unfold maintCommit
    split
    · exact Nat.zero_le N
    · exact h
  | optimizeOp =>
    show (maintCommit s).opsPending ≤ N
    unfold maintCommit
    split
    · exact Nat.zero_le N
    · exact h
  | emptyOp => exact Nat.zero_le N

theorem foldCacheOps_pending_le {N : Nat} (hN : 1 ≤ N) (ops : List CacheOp) :
    ∀ s : OpsSt, s.opsPending ≤ N → (foldCacheOps N s ops).opsPending ≤ N := by
  induction ops with
  | nil => intro s h; exact h
  | cons op rest ih => intro s h; exact ih _ (stepCacheOp_pending_le hN h op)

/-- C2 (counterexample): with commit_every_n_ops = 1, the first mutating
op brings the counter to N = 1 yet issues no backend commit and leaves
the counter at 1, while the claim requires that at that point a commit is
issued and the counter resets to 0 (`willCommit` is evaluated before the
current op is counted, so the counter never triggers on the op that
reaches N). -/
theorem commitAccounting_counterexample :
    (iterMutOps 1 1).opsPending = 1
  ∧ (iterMutOps 1 1).commits = 0
  ∧ ¬((iterMutOps 1 1).opsPending = 0 ∧ (iterMutOps 1 1).commits = 1) := by
  refine ⟨by decide, by decide, by decide⟩

/-- C2 (amended): a mutating op first tests the counter: when it is
nonzero and divisible by N the op issues a commit and resets the counter
to 0 without counting itself, otherwise it increments the counter.
Consequently, starting from a fresh cache, after k mutating ops the
counter reads k mod (N+1) and exactly k div (N+1) auto-commits were
issued — a commit fires on every (N+1)-st op, not every N-th.  An
explicit commit() always resets the counter to 0. -/
theorem commitAccounting_amended (N : Nat) (hN : 1 ≤ N) (k : Nat) :
    (iterMutOps N k).opsPending = k % (N + 1)
  ∧ (iterMutOps N k).commits = k / (N + 1)
  ∧ (cacheCommit (iterMutOps N k)).opsPending = 0 := by
  induction k with
  | zero =>
    refine ⟨?_, ?_, rfl⟩
    · simp [iterMutOps, freshOps]
    · simp [iterMutOps, freshOps]
  | succ k ih =>
    obtain ⟨hp, hc, -⟩ := ih
    have hdm : (N + 1) * (k / (N + 1)) + k % (N + 1) = k := Nat.div_add_mod k (N + 1)
    have hlt : k % (N + 1) < N + 1 := Nat.mod_lt _ (by omega)
    by_cases hpN : k % (N + 1) = N
    · have hwc : willCommit N (iterMutOps N k) = true := by
        unfold willCommit
        rw [hp, hpN]
        simp [Nat.mod_self]
        omega
      have hstep : iterMutOps N (k + 1) = cacheCommit (iterMutOps N k) := by
        show opCommit N (iterMutOps N k) = _
        unfold opCommit
        rw [if_pos hwc]
      have hk1 : k + 1 = (N + 1) * (k / (N + 1) + 1) := by
        rw [Nat.mul_succ]
        omega
      refine ⟨?_, ?_, rfl⟩
      · rw [hstep]
        show 0 = (k + 1) % (N + 1)
        rw [hk1, Nat.mul_mod_right]
      · rw [hstep]
        show (iterMutOps N k).commits + 1 = (k + 1) / (N + 1)
        rw [hc, hk1, Nat.mul_div_cancel_left _ (by omega : 0 < N + 1)]
    · have hplt : k % (N + 1) < N := by omega
      have hwc : willCommit N (iterMutOps N k) = false := by
        unfold willCommit
        rw [hp]
        by_cases hp0 : k % (N + 1) = 0
        · simp [hp0]
        · have hmod : k % (N + 1) % N = k % (N + 1) := Nat.mod_eq_of_lt hplt
          rw [hmod]
          show (!(k % (N + 1) == 0) && (k % (N + 1) == 0)) = false
          exact Bool.not_and_self _
      have hstep : iterMutOps N (k + 1)
          = { iterMutOps N k with opsPending := (iterMutOps N k).opsPending + 1 } := by
        show opCommit N (iterMutOps N k) = _
        unfold opCommit
        rw [if_neg (by rw [hwc]; exact Bool.false_ne_true)]
      have hk1 : k + 1 = k % (N + 1) + 1 + (N + 1) * (k / (N + 1)) := by omega
      refine ⟨?_, ?_, rfl⟩
      · rw [hstep]
        show (iterMutOps N k).opsPending + 1 = (k + 1) % (N + 1)
        rw [hp, hk1, Nat.add_mul_mod_self_left,
          Nat.mod_eq_of_lt (by omega : k % (N + 1) + 1 < N + 1)]
      · rw [hstep]
        show (iterMutOps N k).commits = (k + 1) / (N + 1)
        rw [hc, hk1, Nat.add_mul_div_left _ _ (by omega : 0 < N + 1),
          Nat.div_eq_of_lt (by omega : k % (N + 1) + 1 < N + 1)]
        omega

/-- C2 (witness): the amended accounting evaluated at N = 1 after two
mutating ops: the counter is back at 0 and exactly one auto-commit was
issued (by the second op). -/
theorem commitAccounting_amended_witness :
    (iterMutOps 1 2).opsPending = 2 % (1 + 1)
  ∧ (iterMutOps 1 2).commits = 2 / (1 + 1)
  ∧ (cacheCommit (iterMutOps 1 2)).opsPending = 0 :=
  commitAccounting_amended 1 (by decide) 2

/-- C10: for every sequence of cache operations starting from a freshly
opened cache with commit_every_n_ops = N >= 1, the pending-ops counter
stays in the range 0..N at every prefix of the run (it is a Nat, so 0 is
a floor by construction), and every commit of the cache resets it to 0:
an explicit commit(), the commit performed by vacuum, optimize or empty,
and a mutating op either auto-commits (leaving the counter at 0) or
increments the counter by one. -/
theorem pendingOps_invariant (N : Nat) (hN : 1 ≤ N) (ops : List CacheOp)
    (k : Nat) :
    (runCacheOps N (ops.take k)).opsPending ≤ N
  ∧ (stepCacheOp N (runCacheOps N ops) .commitOp).opsPending = 0
  ∧ (stepCacheOp N (runCacheOps N ops) .vacuumOp).opsPending = 0
  ∧ (stepCacheOp N (runCacheOps N ops) .optimizeOp).opsPending = 0
  ∧ (stepCacheOp N (runCacheOps N ops) .emptyOp).opsPending = 0
  ∧ ((stepCacheOp N (runCacheOps N ops) .mutOp).opsPending = 0
      ∨ (stepCacheOp N (runCacheOps N ops) .mutOp).opsPending
          = (runCacheOps N ops).opsPending + 1) := by
  refine ⟨foldCacheOps_pending_le hN _ _ (Nat.zero_le N), rfl, ?_, ?_, rfl, ?_⟩
  · show (maintCommit (runCacheOps N ops)).opsPending = 0
    unfold maintCommit
    split
    · rfl
    · rename_i hcond
      simpa using hcond
  · show (maintCommit (runCacheOps N ops)).opsPending = 0
    unfold maintCommit
    split
    · rfl
    · rename_i hcond
      simpa using hcond
  · have hmut : (opCommit N (runCacheOps N ops)).opsPending = 0
        ∨ (opCommit N (runCacheOps N ops)).opsPending
            = (runCacheOps N ops).opsPending + 1 := by
      unfold opCommit
      split
      · left; rfl
      · right; rfl
    exact hmut

/-- C10 (witness): the invariant evaluated at N = 1 over the run
[mutating op, explicit commit] with prefix length 1. -/
theorem pendingOps_invariant_witness :
    (runCacheOps 1 ([CacheOp.mutOp, CacheOp.commitOp].take 1)).opsPending ≤ 1
  ∧ (stepCacheOp 1 (runCacheOps 1 [CacheOp.mutOp, CacheOp.commitOp]) .commitOp).opsPending = 0
  ∧ (stepCacheOp 1 (runCacheOps 1 [CacheOp.mutOp, CacheOp.commitOp]) .vacuumOp).opsPending = 0
  ∧ (stepCacheOp 1 (runCacheOps 1 [CacheOp.mutOp, CacheOp.commitOp]) .optimizeOp).opsPending = 0
  ∧ (stepCacheOp 1 (runCacheOps 1 [CacheOp.mutOp, CacheOp.commitOp]) .emptyOp).opsPending = 0
  ∧ ((stepCacheOp 1 (runCacheOps 1 [CacheOp.mutOp, CacheOp.commitOp]) .mutOp).opsPending = 0
      ∨ (stepCacheOp 1 (runCacheOps 1 [CacheOp.mutOp, CacheOp.commitOp]) .mutOp).opsPending
          = (runCacheOps 1 [CacheOp.mutOp, CacheOp.commitOp]).opsPending + 1) :=
  pendingOps_invariant 1 (by decide) [CacheOp.mutOp, CacheOp.commitOp] 1

end CachePy
